import Mathlib

/- Verification development for the qcustomplot-python release tooling.

   The repository consists of two Python release scripts and one example
   plotting script:
   - release.py packages four tarballs out of a temporary directory,
     shelling out to tar, rm, qmake and make, and rewrites .pro files with
     removeExcludeBlockFromFile;
   - test-release.py unpacks the produced tarballs and smoke-tests them,
     aborting with sys.exit(1) when a tar extraction, qmake or make fails;
   - examples/python/sine_plot.py draws a sine wave with QCustomPlot.

   The scripts are shallowly embedded as follows: every subprocess.call is
   an event recording the command string and the exit status supplied by an
   environment function (Nat → Int, indexed by invocation order); file and
   directory manipulations are events over a ScriptState; sys.exit(1) sets
   an exit flag that makes all later steps no-ops, mirroring the SystemExit
   exception.  os.path.isfile is an oracle (List String → Bool) since the
   actual file system contents depend on external tools.  External commands
   themselves (tar, rm, qmake, make) are uninterpreted: only the fact that
   they are invoked, in which order, and with which exit status is modelled.
   removeExcludeBlockFromFile is additionally given a file-system level
   semantics over FileSys (file name → optional list of lines), because its
   line filtering is the one content transformation in the repository.
   Real numbers stand in for Python floats in the sine example. -/

namespace QcpRelease

/-! ### String helpers: the Python substring test (the `in` operator) and
     splitting, over explicit character lists so everything reduces in the
     kernel. -/

/-- Bool test that the first character list is an initial segment of the
second; helper for the substring test. -/
def chPre : List Char → List Char → Bool
  | [], _ => true
  | _ :: _, [] => false
  | a :: as, b :: bs => a == b && chPre as bs

/-- Bool test that the first character list occurs contiguously inside the
second; helper for the substring test. -/
def chSub : List Char → List Char → Bool
  | pat, [] => chPre pat []
  | pat, c :: cs => chPre pat (c :: cs) || chSub pat cs

/-- Python's `pat in s` substring test. -/
def strIn (pat s : String) : Bool := chSub pat.data s.data

/-- Helper for splitting a string at a separator character. -/
def splitChAux (sep : Char) : List Char → List Char → List String
  | [], acc => [String.mk acc.reverse]
  | c :: cs, acc =>
    if c == sep then String.mk acc.reverse :: splitChAux sep cs []
    else splitChAux sep cs (c :: acc)

/-- Split a string at every occurrence of a separator character, like
Python's str.split with a single-character separator. -/
def splitCh (sep : Char) (s : String) : List String := splitChAux sep s.data []

/-! ### removeExcludeBlockFromFile (release.py lines 10-26)

The loop body of the source reads one line at a time, keeping the
excludeBlock flag:

    if "release-exclude-start" in line: excludeBlock = True
    if not excludeBlock: new.write(line)
    if "release-exclude-end" in line: excludeBlock = False

`removeExcludeLines` is that loop on the list of lines of the file; the
Bool argument is the excludeBlock flag. -/

/-- The line-filtering loop of removeExcludeBlockFromFile, translated from
release.py lines 14-23.  The Bool argument is the excludeBlock flag of the
source (initially False). -/
def removeExcludeLines : List String → Bool → List String
  | [], _ => []
  | line :: rest, excludeBlock =>
    let b1 := if strIn "release-exclude-start" line then true else excludeBlock
    let kept := if b1 then ([] : List String) else [line]
    let b2 := if strIn "release-exclude-end" line then false else b1
    kept ++ removeExcludeLines rest b2

/-- A line contains the "release-exclude-start" marker. -/
def hasStartMarker (l : String) : Bool := strIn "release-exclude-start" l

/-- A line contains the "release-exclude-end" marker. -/
def hasEndMarker (l : String) : Bool := strIn "release-exclude-end" l

/-- The lines after the next line containing the end marker; the empty list
when no line contains the end marker (the block then runs to end of file). -/
def afterBlock : List String → List String
  | [] => []
  | l :: rest => if hasEndMarker l then rest else afterBlock rest

lemma afterBlock_le : ∀ ls : List String, (afterBlock ls).length ≤ ls.length := by
  intro ls
  induction ls with
  | nil => simp [afterBlock]
  | cons l rest ih =>
    by_cases he : hasEndMarker l
    · simp [afterBlock, he]
    · simp only [afterBlock, if_neg he, List.length_cons]
      omega

/-- Spec-side filter, following the claim's words amended so that a block
may close on its own start line: a block starts at a line containing the
start marker and extends through the first line at or after it containing
the end marker (both removed); with no such line it extends to end of
file.  An end-marker line with no open block is kept. -/
def specRemove (ls : List String) : List String :=
  match ls with
  | [] => []
  | l :: rest =>
    if hasStartMarker l then
      if hasEndMarker l then specRemove rest
      else specRemove (afterBlock rest)
    else l :: specRemove rest
termination_by ls.length
decreasing_by
  · simp
  · have := afterBlock_le rest
    simp
    omega
  · simp

/-- Spec-side filter following the claim's words literally: a block starts
at a line containing the start marker and extends through the next LATER
line containing the end marker (both removed); with no later end-marker
line it extends to end of file.  An end-marker line with no open block is
kept. -/
def specRemoveStrict (ls : List String) : List String :=
  match ls with
  | [] => []
  | l :: rest =>
    if hasStartMarker l then specRemoveStrict (afterBlock rest)
    else l :: specRemoveStrict rest
termination_by ls.length
decreasing_by
  · have := afterBlock_le rest
    simp
    omega
  · simp

lemma specRemoveStrict_nil : specRemoveStrict [] = [] := by
  rw [specRemoveStrict.eq_def]

/-- In exclude mode the source loop drops every line through the next
end-marker line and then continues in normal mode. -/
lemma removeExcludeLines_skip (ls : List String) :
    removeExcludeLines ls true = removeExcludeLines (afterBlock ls) false := by
  induction ls with
  | nil => rfl
  | cons l rest ih =>
    by_cases he : strIn "release-exclude-end" l
    · simp [removeExcludeLines, afterBlock, hasEndMarker, he]
    · simp [removeExcludeLines, afterBlock, hasEndMarker, he, ih]

/-- The source loop agrees with the amended spec-side filter on every file. -/
lemma removeExcludeLines_eq_specRemove :
    ∀ ls : List String, removeExcludeLines ls false = specRemove ls := by
  intro ls
  induction ls using specRemove.induct with
  | case1 => rw [specRemove.eq_def]; rfl
  | case2 l rest hs he ih =>
    rw [specRemove.eq_def]
    simp only [hasStartMarker, hasEndMarker] at hs he ⊢
    simp [removeExcludeLines, hs, he, ih]
  | case3 l rest hs he ih =>
    rw [specRemove.eq_def]
    simp only [hasStartMarker, hasEndMarker] at hs he ⊢
    simp [removeExcludeLines, removeExcludeLines_skip, hs, he, ih]
  | case4 l rest hs ih =>
    rw [specRemove.eq_def]
    simp only [hasStartMarker] at hs ⊢
    simp [removeExcludeLines, hs, ih]

/-! ### File-system semantics of removeExcludeBlockFromFile

A file system maps file names to optional contents (lists of lines).  The
function renames fname to fname+".temp", writes the filtered lines back to
fname, and removes the temporary file; os.rename and os.remove raise when
the source file is missing, so the embedding returns an Option. -/

/-- File systems for the file-level semantics: name to optional lines. -/
abbrev FileSys := String → Option (List String)

/-- os.rename: fails when the source is absent, overwrites the target. -/
def fsRename (src dst : String) (fs : FileSys) : Option FileSys :=
  match fs src with
  | none => none
  | some content =>
    some (fun g => if g = dst then some content else if g = src then none else fs g)

/-- open(fname, "w") followed by writing the given lines. -/
def fsWrite (fname : String) (content : List String) (fs : FileSys) : FileSys :=
  fun g => if g = fname then some content else fs g

/-- os.remove: fails when the file is absent. -/
def fsRemove (fname : String) (fs : FileSys) : Option FileSys :=
  match fs fname with
  | none => none
  | some _ => some (fun g => if g = fname then none else fs g)

/-- removeExcludeBlockFromFile of release.py lines 10-26: rename the file
to fname+".temp", write the filtered lines back to fname, remove the
temporary file. -/
def removeExcludeBlockFromFile (fname : String) (fs : FileSys) : Option FileSys := do
  let fs1 ← fsRename fname (fname ++ ".temp") fs
  let content := (fs1 (fname ++ ".temp")).getD []
  let fs2 := fsWrite fname (removeExcludeLines content false) fs1
  fsRemove (fname ++ ".temp") fs2

lemma temp_ne (f : String) : ¬ (f ++ ".temp" = f) := by
  intro h
  have h2 := congrArg String.length h
  rw [String.length_append] at h2
  have h3 : (".temp" : String).length = 5 := rfl
  omega

/-- Closed form of removeExcludeBlockFromFile on a file system containing
the file: the file holds the filtered lines, the temporary file is gone,
all other files are untouched. -/
lemma removeExcludeBlockFromFile_eq (fname : String) (fs : FileSys) (lines : List String)
    (h : fs fname = some lines) :
    removeExcludeBlockFromFile fname fs =
      some (fun g =>
        if g = fname ++ ".temp" then none
        else if g = fname then some (removeExcludeLines lines false)
        else fs g) := by
  have hne : ¬ (fname = fname ++ ".temp") := fun hh => temp_ne fname hh.symm
  have h1 : fsRename fname (fname ++ ".temp") fs =
      some (fun g => if g = fname ++ ".temp" then some lines else if g = fname then none else fs g) := by
    unfold fsRename
    rw [h]
  unfold removeExcludeBlockFromFile
  rw [h1]
  show fsRemove (fname ++ ".temp")
      (fsWrite fname
        (removeExcludeLines
          (((fun g => if g = fname ++ ".temp" then some lines else if g = fname then none else fs g)
            (fname ++ ".temp")).getD []) false)
        (fun g => if g = fname ++ ".temp" then some lines else if g = fname then none else fs g)) = _
  have h2 : ((fun g =>
      if g = fname ++ ".temp" then some lines else if g = fname then none else fs g)
      (fname ++ ".temp")).getD [] = lines := by simp
  rw [h2]
  have h3 : fsWrite fname (removeExcludeLines lines false)
      (fun g => if g = fname ++ ".temp" then some lines else if g = fname then none else fs g)
      (fname ++ ".temp") = some lines := by
    unfold fsWrite
    rw [if_neg (temp_ne fname)]
    simp
  unfold fsRemove
  rw [h3]
  show some _ = some _
  congr 1
  funext g
  by_cases hg1 : g = fname ++ ".temp"
  · simp [hg1]
  · by_cases hg2 : g = fname <;> simp [fsWrite, hg1, hg2]

/-! ### Trace semantics of release.py and test-release.py

States record the working directory (as a component list relative to the
script directory), the subprocess invocations with their exit statuses in
order, the printed info and error lines, the move/copy/remove/edit events
with resolved paths, the set of directories created, the number of stdin
reads, and the sys.exit status when set. -/

/-- Resolve one path component against a working directory. -/
def resolveComp (cwd : List String) (comp : String) : List String :=
  if comp = "" ∨ comp = "." then cwd
  else if comp = ".." then cwd.dropLast
  else cwd ++ [comp]

/-- Resolve a relative path against a working directory. -/
def resolvePath (cwd : List String) (p : String) : List String :=
  (splitCh '/' p).foldl resolveComp cwd

/-- Bool test that the first component list is an initial segment of the
second; used for shutil.rmtree, which removes a whole subtree. -/
def dirStartsWith : List String → List String → Bool
  | [], _ => true
  | _ :: _, [] => false
  | a :: as, b :: bs => a == b && dirStartsWith as bs

/-- State of a running script.  A field of the state is written once per
event; sys.exit sets `exited` and freezes the state. -/
structure ScriptState where
  cwd : List String
  calls : List (String × Int)
  infos : List String
  errors : List String
  moves : List (List String × List String)
  copies : List (List String × List String)
  removed : List (List String)
  edits : List (List String)
  dirs : List (List String)
  reads : Nat
  exited : Option Int

/-- Initial state: working directory is the script directory (os.chdir of
sys.path[0] at the top of both scripts), nothing recorded. -/
def initState : ScriptState := ⟨[], [], [], [], [], [], [], [], [], 0, none⟩

/-- printerror of both scripts: record the error message. -/
def printerror (msg : String) : ScriptState → ScriptState
  | ⟨cw, cl, inf, er, mv, cp, rm, ed, dr, rd, ex⟩ =>
    ⟨cw, cl, inf, er ++ [msg], mv, cp, rm, ed, dr, rd, ex⟩

/-- printinfo of both scripts: record the info message. -/
def printinfo (msg : String) : ScriptState → ScriptState
  | ⟨cw, cl, inf, er, mv, cp, rm, ed, dr, rd, ex⟩ =>
    ⟨cw, cl, inf ++ [msg], er, mv, cp, rm, ed, dr, rd, ex⟩

/-- sys.exit: set the exit status; later steps become no-ops. -/
def sysExit (c : Int) : ScriptState → ScriptState
  | ⟨cw, cl, inf, er, mv, cp, rm, ed, dr, rd, _⟩ =>
    ⟨cw, cl, inf, er, mv, cp, rm, ed, dr, rd, some c⟩

/-- subprocess.call with the result discarded (every call in release.py).
The exit status of the n-th invocation overall is `env n`. -/
def plainCall (env : Nat → Int) (cmd : String) : ScriptState → ScriptState
  | ⟨cw, cl, inf, er, mv, cp, rm, ed, dr, rd, ex⟩ =>
    if ex.isSome then ⟨cw, cl, inf, er, mv, cp, rm, ed, dr, rd, ex⟩
    else ⟨cw, cl ++ [(cmd, env cl.length)], inf, er, mv, cp, rm, ed, dr, rd, ex⟩

/-- The pattern `if subprocess.call(cmd) != 0: printerror(msg); sys.exit(1)`
of test-release.py. -/
def checkedCall (env : Nat → Int) (cmd msg : String) : ScriptState → ScriptState
  | ⟨cw, cl, inf, er, mv, cp, rm, ed, dr, rd, ex⟩ =>
    if ex.isSome then ⟨cw, cl, inf, er, mv, cp, rm, ed, dr, rd, ex⟩
    else
      let code := env cl.length
      let s1 : ScriptState := ⟨cw, cl ++ [(cmd, code)], inf, er, mv, cp, rm, ed, dr, rd, ex⟩
      if code ≠ 0 then sysExit 1 (printerror msg s1) else s1

/-- The pattern `if subprocess.call(cmd) != 0: printerror(msg)` of
test-release.py (example executions): report the failure, keep going. -/
def warnCall (env : Nat → Int) (cmd msg : String) : ScriptState → ScriptState
  | ⟨cw, cl, inf, er, mv, cp, rm, ed, dr, rd, ex⟩ =>
    if ex.isSome then ⟨cw, cl, inf, er, mv, cp, rm, ed, dr, rd, ex⟩
    else
      let code := env cl.length
      let s1 : ScriptState := ⟨cw, cl ++ [(cmd, code)], inf, er, mv, cp, rm, ed, dr, rd, ex⟩
      if code ≠ 0 then printerror msg s1 else s1

/-- runQmakeMake of test-release.py lines 10-14: qmake, then make, each
checked; sys.exit(1) on the first failure skips everything after it. -/
def runQmakeMake (env : Nat → Int) (s : ScriptState) : ScriptState :=
  checkedCall env "make" "make failed" (checkedCall env "qmake" "qmake failed" s)

/-- One step of a script. -/
inductive Op where
  | plain (cmd : String)
  | checked (cmd msg : String)
  | warn (cmd msg : String)
  | note (msg : String)
  | chdir (p : String)
  | mkdir (p : String)
  | rmdir (p : String)
  | rmtree (p : String)
  | move (src dst : String)
  | copyFile (src dst : String)
  | copyTree (src dst : String)
  | removeIfFile (p : String)
  | editFile (p : String)
  | readInput

/-- Interpret one step.  The guard on `exited` models that sys.exit raised
SystemExit: nothing after it runs.  `removeIfFile` records the conditional
os.remove inside its own field so that no other field depends on the
oracle. -/
def interp (env : Nat → Int) (isf : List String → Bool) : Op → ScriptState → ScriptState
  | .plain cmd, s => plainCall env cmd s
  | .checked cmd msg, s => checkedCall env cmd msg s
  | .warn cmd msg, s => warnCall env cmd msg s
  | .note msg, ⟨cw, cl, inf, er, mv, cp, rm, ed, dr, rd, ex⟩ =>
    if ex.isSome then ⟨cw, cl, inf, er, mv, cp, rm, ed, dr, rd, ex⟩
    else ⟨cw, cl, inf ++ [msg], er, mv, cp, rm, ed, dr, rd, ex⟩
  | .chdir p, ⟨cw, cl, inf, er, mv, cp, rm, ed, dr, rd, ex⟩ =>
    if ex.isSome then ⟨cw, cl, inf, er, mv, cp, rm, ed, dr, rd, ex⟩
    else ⟨resolvePath cw p, cl, inf, er, mv, cp, rm, ed, dr, rd, ex⟩
  | .mkdir p, ⟨cw, cl, inf, er, mv, cp, rm, ed, dr, rd, ex⟩ =>
    if ex.isSome then ⟨cw, cl, inf, er, mv, cp, rm, ed, dr, rd, ex⟩
    else ⟨cw, cl, inf, er, mv, cp, rm, ed, dr ++ [resolvePath cw p], rd, ex⟩
  | .rmdir p, ⟨cw, cl, inf, er, mv, cp, rm, ed, dr, rd, ex⟩ =>
    if ex.isSome then ⟨cw, cl, inf, er, mv, cp, rm, ed, dr, rd, ex⟩
    else ⟨cw, cl, inf, er, mv, cp, rm, ed, dr.erase (resolvePath cw p), rd, ex⟩
  | .rmtree p, ⟨cw, cl, inf, er, mv, cp, rm, ed, dr, rd, ex⟩ =>
    if ex.isSome then ⟨cw, cl, inf, er, mv, cp, rm, ed, dr, rd, ex⟩
    else ⟨cw, cl, inf, er, mv, cp, rm, ed,
      dr.filter (fun d => !(dirStartsWith (resolvePath cw p) d)), rd, ex⟩
  | .move src dst, ⟨cw, cl, inf, er, mv, cp, rm, ed, dr, rd, ex⟩ =>
    if ex.isSome then ⟨cw, cl, inf, er, mv, cp, rm, ed, dr, rd, ex⟩
    else ⟨cw, cl, inf, er, mv ++ [(resolvePath cw src, resolvePath cw dst)], cp, rm, ed, dr, rd, ex⟩
  | .copyFile src dst, ⟨cw, cl, inf, er, mv, cp, rm, ed, dr, rd, ex⟩ =>
    if ex.isSome then ⟨cw, cl, inf, er, mv, cp, rm, ed, dr, rd, ex⟩
    else ⟨cw, cl, inf, er, mv, cp ++ [(resolvePath cw src, resolvePath cw dst)], rm, ed, dr, rd, ex⟩
  | .copyTree src dst, ⟨cw, cl, inf, er, mv, cp, rm, ed, dr, rd, ex⟩ =>
    if ex.isSome then ⟨cw, cl, inf, er, mv, cp, rm, ed, dr, rd, ex⟩
    else ⟨cw, cl, inf, er, mv, cp ++ [(resolvePath cw src, resolvePath cw dst)], rm, ed,
      dr ++ [resolvePath cw dst], rd, ex⟩
  | .removeIfFile p, ⟨cw, cl, inf, er, mv, cp, rm, ed, dr, rd, ex⟩ =>
    if ex.isSome then ⟨cw, cl, inf, er, mv, cp, rm, ed, dr, rd, ex⟩
    else ⟨cw, cl, inf, er, mv, cp,
      rm ++ (if isf (resolvePath cw p) then [resolvePath cw p] else []), ed, dr, rd, ex⟩
  | .editFile p, ⟨cw, cl, inf, er, mv, cp, rm, ed, dr, rd, ex⟩ =>
    if ex.isSome then ⟨cw, cl, inf, er, mv, cp, rm, ed, dr, rd, ex⟩
    else ⟨cw, cl, inf, er, mv, cp, rm, ed ++ [resolvePath cw p], dr, rd, ex⟩
  | .readInput, ⟨cw, cl, inf, er, mv, cp, rm, ed, dr, rd, ex⟩ =>
    if ex.isSome then ⟨cw, cl, inf, er, mv, cp, rm, ed, dr, rd, ex⟩
    else ⟨cw, cl, inf, er, mv, cp, rm, ed, dr, rd + 1, ex⟩

/-- Run a list of steps in order. -/
def runOps (env : Nat → Int) (isf : List String → Bool) : List Op → ScriptState → ScriptState
  | [], s => s
  | op :: rest, s => runOps env isf rest (interp env isf op s)

/-- The tar command template of release.py line 28. -/
def tarcommand : String := "GZIP=\"-9\" tar -caf"

/-- The archive suffix of release.py line 29. -/
def tarsuffix : String := ".tar.gz"

/-- The full tar invocation for one package name, as concatenated in
release.py. -/
def tarCmd (name : String) : String := tarcommand ++ " " ++ name ++ tarsuffix ++ " *"

/-- release.py lines 31-94 as an event sequence, in source order. -/
def releaseOps : List Op :=
  [ .mkdir "./temp", .chdir "./temp",
    .note "Building QCustomPlot-doc package",
    .copyTree "../doc/html" "./html",
    .copyFile "../doc/qthelp/qcustomplot.qch" "./",
    .plain (tarCmd "QCustomPlot-doc"),
    .move ("QCustomPlot-doc" ++ tarsuffix) "../",
    .plain "rm -r *",
    .note "Building QCustomPlot-source package",
    .copyFile "../qcustomplot.h" "./", .copyFile "../qcustomplot.cpp" "./",
    .copyFile "../GPL.txt" "./", .copyFile "../changenotes.txt" "./",
    .plain (tarCmd "QCustomPlot-source"),
    .move ("QCustomPlot-source" ++ tarsuffix) "../",
    .plain "rm -r *",
    .note "Building QCustomPlot package",
    .copyFile "../qcustomplot.h" "./", .copyFile "../qcustomplot.cpp" "./",
    .copyFile "../GPL.txt" "./", .copyFile "../changenotes.txt" "./",
    .copyTree "../plot-examples" "./plot-examples",
    .copyTree "../interaction-example" "./interaction-example",
    .chdir "./plot-examples",
    .plain "qmake", .plain "make clean",
    .removeIfFile "./plot-examples.pro.user", .removeIfFile "./plot-examples",
    .removeIfFile "./Makefile",
    .rmtree "./screenshots",
    .editFile "plot-examples.pro",
    .chdir "../interaction-example",
    .plain "qmake", .plain "make clean",
    .removeIfFile "./interaction-example.pro.user", .removeIfFile "./interaction-example",
    .removeIfFile "./Makefile",
    .chdir "../",
    .plain (tarCmd "QCustomPlot"),
    .move ("QCustomPlot" ++ tarsuffix) "../",
    .plain "rm -r *",
    .note "Building QCustomPlot-sharedlib package",
    .copyFile "../sharedlib/readme.txt" "./",
    .mkdir "sharedlib",
    .copyFile "../sharedlib/sharedlib.pro" "./sharedlib/",
    .mkdir "sharedlib-demo",
    .copyFile "../sharedlib-demo/sharedlib-demo.pro" "./sharedlib-demo/",
    .copyFile "../plot-examples/main.cpp" "./sharedlib-demo/",
    .copyFile "../plot-examples/mainwindow.h" "./sharedlib-demo/",
    .copyFile "../plot-examples/mainwindow.cpp" "./sharedlib-demo/",
    .copyFile "../plot-examples/mainwindow.ui" "./sharedlib-demo/",
    .plain (tarCmd "QCustomPlot-sharedlib"),
    .move ("QCustomPlot-sharedlib" ++ tarsuffix) "../",
    .plain "rm -r *",
    .chdir "../",
    .rmdir "./temp",
    .note "done" ]

/-- A run of release.py under a given environment of exit statuses and
isfile oracle. -/
def releaseRun (env : Nat → Int) (isf : List String → Bool) : ScriptState :=
  runOps env isf releaseOps initState

/-- test-release.py lines 113-173 as an event sequence, in source order.
The runQmakeMake() calls appear as their two checked invocations. -/
def testOps : List Op :=
  [ .mkdir "./temp", .chdir "./temp",
    .note "QCustomPlot package:",
    .mkdir "QCustomPlot", .chdir "QCustomPlot",
    .copyFile "../../QCustomPlot.tar.gz" "./",
    .checked "tar -xf QCustomPlot.tar.gz" "Failed to untar QCustomPlot.tar.gz",
    .note "interaction-example",
    .chdir "interaction-example",
    .checked "qmake" "qmake failed", .checked "make" "make failed",
    .warn "./interaction-example" "Execution unsuccessful",
    .chdir "..",
    .note "plot-examples",
    .chdir "plot-examples",
    .checked "qmake" "qmake failed", .checked "make" "make failed",
    .warn "./plot-examples" "Execution unsuccessful",
    .chdir "..",
    .chdir "..",
    .note "QCustomPlot-sharedlib package:",
    .mkdir "QCustomPlot-sharedlib", .chdir "QCustomPlot-sharedlib",
    .copyFile "../../QCustomPlot-sharedlib.tar.gz" "./",
    .checked "tar -xf QCustomPlot-sharedlib.tar.gz" "Failed to untar QCustomPlot-sharedlib.tar.gz",
    .copyFile "../../QCustomPlot-source.tar.gz" "./",
    .checked "tar -xf QCustomPlot-source.tar.gz" "Failed to untar QCustomPlot-source.tar.gz",
    .note "sharedlib compile",
    .chdir "sharedlib",
    .checked "qmake" "qmake failed", .checked "make" "make failed",
    .plain "cp libqcustomplot* ../sharedlib-demo",
    .chdir "..",
    .note "sharedlib use",
    .chdir "sharedlib-demo",
    .checked "qmake" "qmake failed", .checked "make" "make failed",
    .warn "export LD_LIBRARY_PATH=.; ./sharedlib-demo" "Execution unsuccessful",
    .chdir "..",
    .chdir "..",
    .note "Press any key to remove temp directory...",
    .readInput,
    .chdir "..",
    .rmtree "./temp",
    .note "done." ]

/-- isfile oracle answering false everywhere; test-release.py performs no
isfile checks, so its run does not depend on the oracle. -/
def noFiles : List String → Bool := fun _ => false

/-- A run of test-release.py under a given environment of exit statuses. -/
def testReleaseRun (env : Nat → Int) : ScriptState := runOps env noFiles testOps initState

/-- The command of a step, when it is a subprocess invocation. -/
def cmdOf : Op → List String
  | .plain cmd => [cmd]
  | .checked cmd _ => [cmd]
  | .warn cmd _ => [cmd]
  | _ => []

/-- All subprocess commands of a step list, in order. -/
def opCmds (ops : List Op) : List String := (ops.map cmdOf).flatten

/-- The twelve commands release.py invokes, in order. -/
def releaseCmds : List String := opCmds releaseOps

/-- The fifteen commands test-release.py attempts, in order. -/
def testCmds : List String := opCmds testOps

/-- The trace of commands paired with environment-assigned exit statuses,
starting at invocation index k. -/
def seqZip (env : Nat → Int) : Nat → List String → List (String × Int)
  | _, [] => []
  | k, c :: cs => (c, env k) :: seqZip env (k + 1) cs

lemma seqZip_map_fst (env : Nat → Int) :
    ∀ (cs : List String) (k : Nat), (seqZip env k cs).map Prod.fst = cs := by
  intro cs
  induction cs with
  | nil => intro k; rfl
  | cons c cs ih => intro k; simp [seqZip, ih]

lemma seqZip_mem (env : Nat → Int) :
    ∀ (cs : List String) (k : Nat) (p : String × Int), p ∈ seqZip env k cs → p.1 ∈ cs := by
  intro cs
  induction cs with
  | nil => intro k p hp; simp [seqZip] at hp
  | cons c cs ih =>
    intro k p hp
    simp only [seqZip, List.mem_cons] at hp
    rcases hp with hp | hp
    · subst hp; simp
    · exact List.mem_cons_of_mem c (ih (k + 1) p hp)

lemma seqZip_getElem? (env : Nat → Int) :
    ∀ (cs : List String) (k i : Nat) (p : String × Int),
      (seqZip env k cs)[i]? = some p → p.2 = env (k + i) := by
  intro cs
  induction cs with
  | nil => intro k i p hp; simp [seqZip] at hp
  | cons c cs ih =>
    intro k i p hp
    cases i with
    | zero =>
      simp only [seqZip, List.getElem?_cons_zero, Option.some.injEq] at hp
      subst hp; rfl
    | succ j =>
      simp only [seqZip, List.getElem?_cons_succ] at hp
      have := ih (k + 1) j p hp
      rw [this]
      congr 1
      omega

lemma interp_exited (env : Nat → Int) (isf : List String → Bool) (op : Op) :
    ∀ s : ScriptState, s.exited.isSome → interp env isf op s = s := by
  intro s h
  obtain ⟨cw, cl, inf, er, mv, cp, rm, ed, dr, rd, ex⟩ := s
  simp only [ScriptState.exited] at h
  cases ex with
  | none => simp at h
  | some c => cases op <;> simp [interp, plainCall, checkedCall, warnCall]

lemma runOps_exited (env : Nat → Int) (isf : List String → Bool) :
    ∀ (ops : List Op) (s : ScriptState), s.exited.isSome → runOps env isf ops s = s := by
  intro ops
  induction ops with
  | nil => intro s _; rfl
  | cons op rest ih =>
    intro s h
    rw [runOps, interp_exited env isf op s h, ih s h]

/-- Master trace lemma: a run's call trace is the environment-zipped prefix
of the commands of its step list. -/
lemma runOps_calls (env : Nat → Int) (isf : List String → Bool) :
    ∀ (ops : List Op) (s : ScriptState), ∃ m,
      (runOps env isf ops s).calls = s.calls ++ seqZip env s.calls.length ((opCmds ops).take m) := by
  intro ops
  induction ops with
  | nil =>
    intro s
    exact ⟨0, by simp [runOps, opCmds, seqZip]⟩
  | cons op rest ih =>
    intro s
    by_cases hex : s.exited.isSome
    · refine ⟨0, ?_⟩
      rw [runOps_exited env isf _ s hex]
      simp [seqZip]
    · obtain ⟨cw, cl, inf, er, mv, cp, rm, ed, dr, rd, ex⟩ := s
      simp only [ScriptState.exited] at hex
      have hnone : ex = none := by cases ex <;> simp_all
      subst hnone
      cases op with
      | plain cmd =>
        have hstep : interp env isf (Op.plain cmd) ⟨cw, cl, inf, er, mv, cp, rm, ed, dr, rd, none⟩ =
            ⟨cw, cl ++ [(cmd, env cl.length)], inf, er, mv, cp, rm, ed, dr, rd, none⟩ := by
          simp [interp, plainCall]
        obtain ⟨m, hm⟩ := ih ⟨cw, cl ++ [(cmd, env cl.length)], inf, er, mv, cp, rm, ed, dr, rd, none⟩
        refine ⟨m + 1, ?_⟩
        rw [runOps, hstep, hm]
        simp [opCmds, cmdOf, seqZip, List.take_succ_cons, List.append_assoc]
      | checked cmd msg =>
        by_cases hc : env cl.length ≠ 0
        · refine ⟨1, ?_⟩
          have hstep : interp env isf (Op.checked cmd msg)
                ⟨cw, cl, inf, er, mv, cp, rm, ed, dr, rd, none⟩ =
              ⟨cw, cl ++ [(cmd, env cl.length)], inf, er ++ [msg], mv, cp, rm, ed, dr, rd,
                some 1⟩ := by
            simp [interp, checkedCall, sysExit, printerror, hc]
          rw [runOps, hstep, runOps_exited env isf rest _ (by simp)]
          simp [opCmds, cmdOf, seqZip, List.take_succ_cons]
        · push_neg at hc
          have hstep : interp env isf (Op.checked cmd msg)
                ⟨cw, cl, inf, er, mv, cp, rm, ed, dr, rd, none⟩ =
              ⟨cw, cl ++ [(cmd, env cl.length)], inf, er, mv, cp, rm, ed, dr, rd, none⟩ := by
            simp [interp, checkedCall, hc]
          obtain ⟨m, hm⟩ :=
            ih ⟨cw, cl ++ [(cmd, env cl.length)], inf, er, mv, cp, rm, ed, dr, rd, none⟩
          refine ⟨m + 1, ?_⟩
          rw [runOps, hstep, hm]
          simp [opCmds, cmdOf, seqZip, List.take_succ_cons, List.append_assoc]
      | warn cmd msg =>
        by_cases hc : env cl.length ≠ 0
        · have hstep : interp env isf (Op.warn cmd msg)
                ⟨cw, cl, inf, er, mv, cp, rm, ed, dr, rd, none⟩ =
              ⟨cw, cl ++ [(cmd, env cl.length)], inf, er ++ [msg], mv, cp, rm, ed, dr, rd,
                none⟩ := by
            simp [interp, warnCall, printerror, hc]
          obtain ⟨m, hm⟩ :=
            ih ⟨cw, cl ++ [(cmd, env cl.length)], inf, er ++ [msg], mv, cp, rm, ed, dr, rd, none⟩
          refine ⟨m + 1, ?_⟩
          rw [runOps, hstep, hm]
          simp [opCmds, cmdOf, seqZip, List.take_succ_cons, List.append_assoc]
        · push_neg at hc
          have hstep : interp env isf (Op.warn cmd msg)
                ⟨cw, cl, inf, er, mv, cp, rm, ed, dr, rd, none⟩ =
              ⟨cw, cl ++ [(cmd, env cl.length)], inf, er, mv, cp, rm, ed, dr, rd, none⟩ := by
            simp [interp, warnCall, hc]
          obtain ⟨m, hm⟩ :=
            ih ⟨cw, cl ++ [(cmd, env cl.length)], inf, er, mv, cp, rm, ed, dr, rd, none⟩
          refine ⟨m + 1, ?_⟩
          rw [runOps, hstep, hm]
          simp [opCmds, cmdOf, seqZip, List.take_succ_cons, List.append_assoc]
      | note msg =>
        obtain ⟨m, hm⟩ := ih ⟨cw, cl, inf ++ [msg], er, mv, cp, rm, ed, dr, rd, none⟩
        refine ⟨m, ?_⟩
        rw [runOps, show interp env isf (Op.note msg) ⟨cw, cl, inf, er, mv, cp, rm, ed, dr, rd, none⟩ =
          ⟨cw, cl, inf ++ [msg], er, mv, cp, rm, ed, dr, rd, none⟩ from by simp [interp], hm]
        simp [opCmds, cmdOf]
      | chdir p =>
        obtain ⟨m, hm⟩ := ih ⟨resolvePath cw p, cl, inf, er, mv, cp, rm, ed, dr, rd, none⟩
        refine ⟨m, ?_⟩
        rw [runOps, show interp env isf (Op.chdir p) ⟨cw, cl, inf, er, mv, cp, rm, ed, dr, rd, none⟩ =
          ⟨resolvePath cw p, cl, inf, er, mv, cp, rm, ed, dr, rd, none⟩ from by simp [interp], hm]
        simp [opCmds, cmdOf]
      | mkdir p =>
        obtain ⟨m, hm⟩ := ih ⟨cw, cl, inf, er, mv, cp, rm, ed, dr ++ [resolvePath cw p], rd, none⟩
        refine ⟨m, ?_⟩
        rw [runOps, show interp env isf (Op.mkdir p) ⟨cw, cl, inf, er, mv, cp, rm, ed, dr, rd, none⟩ =
          ⟨cw, cl, inf, er, mv, cp, rm, ed, dr ++ [resolvePath cw p], rd, none⟩ from by simp [interp], hm]
        simp [opCmds, cmdOf]
      | rmdir p =>
        obtain ⟨m, hm⟩ := ih ⟨cw, cl, inf, er, mv, cp, rm, ed, dr.erase (resolvePath cw p), rd, none⟩
        refine ⟨m, ?_⟩
        rw [runOps, show interp env isf (Op.rmdir p) ⟨cw, cl, inf, er, mv, cp, rm, ed, dr, rd, none⟩ =
          ⟨cw, cl, inf, er, mv, cp, rm, ed, dr.erase (resolvePath cw p), rd, none⟩ from by simp [interp], hm]
        simp [opCmds, cmdOf]
      | rmtree p =>
        obtain ⟨m, hm⟩ :=
          ih ⟨cw, cl, inf, er, mv, cp, rm, ed,
            dr.filter (fun d => !(dirStartsWith (resolvePath cw p) d)), rd, none⟩
        refine ⟨m, ?_⟩
        rw [runOps, show interp env isf (Op.rmtree p) ⟨cw, cl, inf, er, mv, cp, rm, ed, dr, rd, none⟩ =
          ⟨cw, cl, inf, er, mv, cp, rm, ed,
            dr.filter (fun d => !(dirStartsWith (resolvePath cw p) d)), rd, none⟩ from by
          simp [interp], hm]
        simp [opCmds, cmdOf]
      | move src dst =>
        obtain ⟨m, hm⟩ :=
          ih ⟨cw, cl, inf, er, mv ++ [(resolvePath cw src, resolvePath cw dst)], cp, rm, ed, dr,
            rd, none⟩
        refine ⟨m, ?_⟩
        rw [runOps, show interp env isf (Op.move src dst) ⟨cw, cl, inf, er, mv, cp, rm, ed, dr, rd, none⟩ =
          ⟨cw, cl, inf, er, mv ++ [(resolvePath cw src, resolvePath cw dst)], cp, rm, ed, dr, rd,
            none⟩ from by simp [interp], hm]
        simp [opCmds, cmdOf]
      | copyFile src dst =>
        obtain ⟨m, hm⟩ :=
          ih ⟨cw, cl, inf, er, mv, cp ++ [(resolvePath cw src, resolvePath cw dst)], rm, ed, dr,
            rd, none⟩
        refine ⟨m, ?_⟩
        rw [runOps, show interp env isf (Op.copyFile src dst) ⟨cw, cl, inf, er, mv, cp, rm, ed, dr, rd, none⟩ =
          ⟨cw, cl, inf, er, mv, cp ++ [(resolvePath cw src, resolvePath cw dst)], rm, ed, dr, rd,
            none⟩ from by simp [interp], hm]
        simp [opCmds, cmdOf]
      | copyTree src dst =>
        obtain ⟨m, hm⟩ :=
          ih ⟨cw, cl, inf, er, mv, cp ++ [(resolvePath cw src, resolvePath cw dst)], rm, ed,
            dr ++ [resolvePath cw dst], rd, none⟩
        refine ⟨m, ?_⟩
        rw [runOps, show interp env isf (Op.copyTree src dst) ⟨cw, cl, inf, er, mv, cp, rm, ed, dr, rd, none⟩ =
          ⟨cw, cl, inf, er, mv, cp ++ [(resolvePath cw src, resolvePath cw dst)], rm, ed,
            dr ++ [resolvePath cw dst], rd, none⟩ from by simp [interp], hm]
        simp [opCmds, cmdOf]
      | removeIfFile p =>
        obtain ⟨m, hm⟩ :=
          ih ⟨cw, cl, inf, er, mv, cp,
            rm ++ (if isf (resolvePath cw p) then [resolvePath cw p] else []), ed, dr, rd, none⟩
        refine ⟨m, ?_⟩
        rw [runOps, show interp env isf (Op.removeIfFile p) ⟨cw, cl, inf, er, mv, cp, rm, ed, dr, rd, none⟩ =
          ⟨cw, cl, inf, er, mv, cp,
            rm ++ (if isf (resolvePath cw p) then [resolvePath cw p] else []), ed, dr, rd,
            none⟩ from by simp [interp], hm]
        simp [opCmds, cmdOf]
      | editFile p =>
        obtain ⟨m, hm⟩ := ih ⟨cw, cl, inf, er, mv, cp, rm, ed ++ [resolvePath cw p], dr, rd, none⟩
        refine ⟨m, ?_⟩
        rw [runOps, show interp env isf (Op.editFile p) ⟨cw, cl, inf, er, mv, cp, rm, ed, dr, rd, none⟩ =
          ⟨cw, cl, inf, er, mv, cp, rm, ed ++ [resolvePath cw p], dr, rd, none⟩ from by
          simp [interp], hm]
        simp [opCmds, cmdOf]
      | readInput =>
        obtain ⟨m, hm⟩ := ih ⟨cw, cl, inf, er, mv, cp, rm, ed, dr, rd + 1, none⟩
        refine ⟨m, ?_⟩
        rw [runOps, show interp env isf Op.readInput ⟨cw, cl, inf, er, mv, cp, rm, ed, dr, rd, none⟩ =
          ⟨cw, cl, inf, er, mv, cp, rm, ed, dr, rd + 1, none⟩ from by simp [interp], hm]
        simp [opCmds, cmdOf]

/-- Completion lemma: a run whose final state has not exited performed
every step, so its call trace is the environment-zipped full command list
of its step list. -/
lemma runOps_calls_full (env : Nat → Int) (isf : List String → Bool) :
    ∀ (ops : List Op) (s : ScriptState), (runOps env isf ops s).exited = none →
      (runOps env isf ops s).calls = s.calls ++ seqZip env s.calls.length (opCmds ops) := by
  intro ops
  induction ops with
  | nil =>
    intro s _
    simp [runOps, opCmds, seqZip]
  | cons op rest ih =>
    intro s hfin
    by_cases hex : s.exited.isSome
    · exfalso
      rw [runOps_exited env isf _ s hex] at hfin
      rw [hfin] at hex
      simp at hex
    · obtain ⟨cw, cl, inf, er, mv, cp, rm, ed, dr, rd, ex⟩ := s
      simp only [ScriptState.exited] at hex
      have hnone : ex = none := by cases ex <;> simp_all
      subst hnone
      cases op with
      | plain cmd =>
        rw [runOps, show interp env isf (Op.plain cmd)
              ⟨cw, cl, inf, er, mv, cp, rm, ed, dr, rd, none⟩ =
            ⟨cw, cl ++ [(cmd, env cl.length)], inf, er, mv, cp, rm, ed, dr, rd, none⟩ from by
          simp [interp, plainCall]] at hfin ⊢
        rw [ih _ hfin]
        simp [opCmds, cmdOf, seqZip, List.append_assoc]
      | checked cmd msg =>
        by_cases hc : env cl.length ≠ 0
        · exfalso
          rw [runOps, show interp env isf (Op.checked cmd msg)
                ⟨cw, cl, inf, er, mv, cp, rm, ed, dr, rd, none⟩ =
              ⟨cw, cl ++ [(cmd, env cl.length)], inf, er ++ [msg], mv, cp, rm, ed, dr, rd,
                some 1⟩ from by
            simp [interp, checkedCall, sysExit, printerror, hc],
            runOps_exited env isf rest _ (by simp)] at hfin
          exact Option.noConfusion hfin
        · push_neg at hc
          rw [runOps, show interp env isf (Op.checked cmd msg)
                ⟨cw, cl, inf, er, mv, cp, rm, ed, dr, rd, none⟩ =
              ⟨cw, cl ++ [(cmd, env cl.length)], inf, er, mv, cp, rm, ed, dr, rd, none⟩ from by
            simp [interp, checkedCall, hc]] at hfin ⊢
          rw [ih _ hfin]
          simp [opCmds, cmdOf, seqZip, List.append_assoc]
      | warn cmd msg =>
        by_cases hc : env cl.length ≠ 0
        · rw [runOps, show interp env isf (Op.warn cmd msg)
                ⟨cw, cl, inf, er, mv, cp, rm, ed, dr, rd, none⟩ =
              ⟨cw, cl ++ [(cmd, env cl.length)], inf, er ++ [msg], mv, cp, rm, ed, dr, rd,
                none⟩ from by
            simp [interp, warnCall, printerror, hc]] at hfin ⊢
          rw [ih _ hfin]
          simp [opCmds, cmdOf, seqZip, List.append_assoc]
        · push_neg at hc
          rw [runOps, show interp env isf (Op.warn cmd msg)
                ⟨cw, cl, inf, er, mv, cp, rm, ed, dr, rd, none⟩ =
              ⟨cw, cl ++ [(cmd, env cl.length)], inf, er, mv, cp, rm, ed, dr, rd, none⟩ from by
            simp [interp, warnCall, hc]] at hfin ⊢
          rw [ih _ hfin]
          simp [opCmds, cmdOf, seqZip, List.append_assoc]
      | note msg =>
        rw [runOps, show interp env isf (Op.note msg)
              ⟨cw, cl, inf, er, mv, cp, rm, ed, dr, rd, none⟩ =
            ⟨cw, cl, inf ++ [msg], er, mv, cp, rm, ed, dr, rd, none⟩ from by simp [interp]] at hfin ⊢
        rw [ih _ hfin]
        simp [opCmds, cmdOf]
      | chdir p =>
        rw [runOps, show interp env isf (Op.chdir p)
              ⟨cw, cl, inf, er, mv, cp, rm, ed, dr, rd, none⟩ =
            ⟨resolvePath cw p, cl, inf, er, mv, cp, rm, ed, dr, rd, none⟩ from by simp [interp]] at hfin ⊢
        rw [ih _ hfin]
        simp [opCmds, cmdOf]
      | mkdir p =>
        rw [runOps, show interp env isf (Op.mkdir p)
              ⟨cw, cl, inf, er, mv, cp, rm, ed, dr, rd, none⟩ =
            ⟨cw, cl, inf, er, mv, cp, rm, ed, dr ++ [resolvePath cw p], rd, none⟩ from by simp [interp]] at hfin ⊢
        rw [ih _ hfin]
        simp [opCmds, cmdOf]
      | rmdir p =>
        rw [runOps, show interp env isf (Op.rmdir p)
              ⟨cw, cl, inf, er, mv, cp, rm, ed, dr, rd, none⟩ =
            ⟨cw, cl, inf, er, mv, cp, rm, ed, dr.erase (resolvePath cw p), rd, none⟩ from by simp [interp]] at hfin ⊢
        rw [ih _ hfin]
        simp [opCmds, cmdOf]
      | rmtree p =>
        rw [runOps, show interp env isf (Op.rmtree p)
              ⟨cw, cl, inf, er, mv, cp, rm, ed, dr, rd, none⟩ =
            ⟨cw, cl, inf, er, mv, cp, rm, ed,
              dr.filter (fun d => !(dirStartsWith (resolvePath cw p) d)), rd, none⟩ from by simp [interp]] at hfin ⊢
        rw [ih _ hfin]
        simp [opCmds, cmdOf]
      | move src dst =>
        rw [runOps, show interp env isf (Op.move src dst)
              ⟨cw, cl, inf, er, mv, cp, rm, ed, dr, rd, none⟩ =
            ⟨cw, cl, inf, er, mv ++ [(resolvePath cw src, resolvePath cw dst)], cp, rm, ed,
              dr, rd, none⟩ from by simp [interp]] at hfin ⊢
        rw [ih _ hfin]
        simp [opCmds, cmdOf]
      | copyFile src dst =>
        rw [runOps, show interp env isf (Op.copyFile src dst)
              ⟨cw, cl, inf, er, mv, cp, rm, ed, dr, rd, none⟩ =
            ⟨cw, cl, inf, er, mv, cp ++ [(resolvePath cw src, resolvePath cw dst)], rm, ed,
              dr, rd, none⟩ from by simp [interp]] at hfin ⊢
        rw [ih _ hfin]
        simp [opCmds, cmdOf]
      | copyTree src dst =>
        rw [runOps, show interp env isf (Op.copyTree src dst)
              ⟨cw, cl, inf, er, mv, cp, rm, ed, dr, rd, none⟩ =
            ⟨cw, cl, inf, er, mv, cp ++ [(resolvePath cw src, resolvePath cw dst)], rm, ed,
              dr ++ [resolvePath cw dst], rd, none⟩ from by simp [interp]] at hfin ⊢
        rw [ih _ hfin]
        simp [opCmds, cmdOf]
      | removeIfFile p =>
        rw [runOps, show interp env isf (Op.removeIfFile p)
              ⟨cw, cl, inf, er, mv, cp, rm, ed, dr, rd, none⟩ =
            ⟨cw, cl, inf, er, mv, cp,
              rm ++ (if isf (resolvePath cw p) then [resolvePath cw p] else []), ed, dr, rd,
              none⟩ from by simp [interp]] at hfin ⊢
        rw [ih _ hfin]
        simp [opCmds, cmdOf]
      | editFile p =>
        rw [runOps, show interp env isf (Op.editFile p)
              ⟨cw, cl, inf, er, mv, cp, rm, ed, dr, rd, none⟩ =
            ⟨cw, cl, inf, er, mv, cp, rm, ed ++ [resolvePath cw p], dr, rd, none⟩ from by simp [interp]] at hfin ⊢
        rw [ih _ hfin]
        simp [opCmds, cmdOf]
      | readInput =>
        rw [runOps, show interp env isf (Op.readInput)
              ⟨cw, cl, inf, er, mv, cp, rm, ed, dr, rd, none⟩ =
            ⟨cw, cl, inf, er, mv, cp, rm, ed, dr, rd + 1, none⟩ from by simp [interp]] at hfin ⊢
        rw [ih _ hfin]
        simp [opCmds, cmdOf]

/-! ### Concrete environments used by witnesses and counterexamples -/

/-- Environment in which every subprocess succeeds. -/
def zeroEnv : Nat → Int := fun _ => 0

/-- Environment in which every subprocess fails with status 1. -/
def oneEnv : Nat → Int := fun _ => 1

/-- Environment in which the n-th subprocess exits with status n + 5. -/
def incEnv : Nat → Int := fun n => (n : Int) + 5

/-- Environment in which the first subprocess succeeds and all others
fail. -/
def mkFailEnv : Nat → Int := fun n => if n = 0 then 0 else 1

/-- Environment in which only the fourth subprocess of a test-release.py
run, the interaction-example execution, fails. -/
def warnFailEnv : Nat → Int := fun n => if n = 3 then 1 else 0

/-! ### Evaluated facts about a release.py run

release.py never looks at an exit status, so its run is the same event
sequence for every environment and oracle; each fact below is a plain
computation. -/

set_option maxRecDepth 8000 in
lemma release_calls (env : Nat → Int) (isf : List String → Bool) :
    (releaseRun env isf).calls = seqZip env 0 releaseCmds := rfl

set_option maxRecDepth 8000 in
lemma release_errors (env : Nat → Int) (isf : List String → Bool) :
    (releaseRun env isf).errors = [] := rfl

set_option maxRecDepth 8000 in
lemma release_exited (env : Nat → Int) (isf : List String → Bool) :
    (releaseRun env isf).exited = none := rfl

set_option maxRecDepth 8000 in
lemma release_moves (env : Nat → Int) (isf : List String → Bool) :
    (releaseRun env isf).moves =
      [(["temp", "QCustomPlot-doc.tar.gz"], []),
       (["temp", "QCustomPlot-source.tar.gz"], []),
       (["temp", "QCustomPlot.tar.gz"], []),
       (["temp", "QCustomPlot-sharedlib.tar.gz"], [])] := rfl

set_option maxRecDepth 8000 in
lemma release_dirs (env : Nat → Int) (isf : List String → Bool) :
    (releaseRun env isf).dirs =
      [["temp", "html"], ["temp", "plot-examples"], ["temp", "interaction-example"],
       ["temp", "sharedlib"], ["temp", "sharedlib-demo"]] := rfl

/-! ### Error-handling invariant of test-release.py -/

/-- The commands whose failure makes test-release.py print an error and
call sys.exit(1): the three tar extractions and every qmake and make run
(all through runQmakeMake). -/
def checkedCmds : List String :=
  ["tar -xf QCustomPlot.tar.gz", "tar -xf QCustomPlot-sharedlib.tar.gz",
   "tar -xf QCustomPlot-source.tar.gz", "qmake", "make"]

/-- The commands whose failure test-release.py only reports with the
message "Execution unsuccessful" before continuing: the three example
executions. -/
def warnCmds : List String :=
  ["./interaction-example", "./plot-examples", "export LD_LIBRARY_PATH=.; ./sharedlib-demo"]

/-- A step is compatible with the invariant: plain calls run neither
checked nor warned commands, checked calls run checked commands, and a
warn step on a warned command carries the "Execution unsuccessful"
message. -/
def opOk : Op → Prop
  | .plain cmd => cmd ∉ checkedCmds ∧ cmd ∉ warnCmds
  | .checked cmd _ => cmd ∈ checkedCmds ∧ cmd ∉ warnCmds
  | .warn cmd msg => cmd ∉ checkedCmds ∧ (cmd ∈ warnCmds → msg = "Execution unsuccessful")
  | _ => True

instance : DecidablePred opOk := fun op => by
  cases op <;> simp only [opOk] <;> infer_instance

/-- Invariant of a test-release.py run: the script either is running or has
exited with status 1; while running, no checked command in the trace has
failed; once exited, an error message has been printed and some checked
command in the trace did fail; and every failing warned command in the
trace has put "Execution unsuccessful" among the printed errors. -/
def stateInv (s : ScriptState) : Prop :=
  (s.exited = none ∨ s.exited = some 1) ∧
  (s.exited = none → ∀ p ∈ s.calls, p.1 ∈ checkedCmds → p.2 = 0) ∧
  (s.exited = some 1 → s.errors ≠ []) ∧
  (s.exited = some 1 → ∃ p ∈ s.calls, p.1 ∈ checkedCmds ∧ p.2 ≠ 0) ∧
  (∀ p ∈ s.calls, p.1 ∈ warnCmds → p.2 ≠ 0 → "Execution unsuccessful" ∈ s.errors)

lemma interp_inv (env : Nat → Int) (isf : List String → Bool) (op : Op) (hop : opOk op)
    (s : ScriptState) (h : stateInv s) : stateInv (interp env isf op s) := by
  by_cases hex : s.exited.isSome
  · rw [interp_exited env isf op s hex]
    exact h
  · obtain ⟨cw, cl, inf, er, mv, cp, rm, ed, dr, rd, ex⟩ := s
    simp only [ScriptState.exited] at hex
    have hnone : ex = none := by cases ex <;> simp_all
    subst hnone
    obtain ⟨h1, h2, h3, h4, h5⟩ := h
    have h2a := h2 rfl
    cases op with
    | plain cmd =>
      simp only [opOk] at hop
      obtain ⟨hopc, hopw⟩ := hop
      have hstep : interp env isf (Op.plain cmd) ⟨cw, cl, inf, er, mv, cp, rm, ed, dr, rd, none⟩ =
          ⟨cw, cl ++ [(cmd, env cl.length)], inf, er, mv, cp, rm, ed, dr, rd, none⟩ := by
        simp [interp, plainCall]
      rw [hstep]
      refine ⟨Or.inl rfl, ?_, fun hcon => Option.noConfusion hcon,
        fun hcon => Option.noConfusion hcon, ?_⟩
      · intro _ p hp hpc
        rcases List.mem_append.mp hp with hp | hp
        · exact h2a p hp hpc
        · simp only [List.mem_singleton] at hp
          subst hp
          exact absurd hpc hopc
      · intro p hp hpw hpn
        rcases List.mem_append.mp hp with hp | hp
        · exact h5 p hp hpw hpn
        · simp only [List.mem_singleton] at hp
          subst hp
          exact absurd hpw hopw
    | checked cmd msg =>
      simp only [opOk] at hop
      obtain ⟨hopc, hopw⟩ := hop
      by_cases hc : env cl.length ≠ 0
      · have hstep : interp env isf (Op.checked cmd msg)
              ⟨cw, cl, inf, er, mv, cp, rm, ed, dr, rd, none⟩ =
            ⟨cw, cl ++ [(cmd, env cl.length)], inf, er ++ [msg], mv, cp, rm, ed, dr, rd,
              some 1⟩ := by
          simp [interp, checkedCall, sysExit, printerror, hc]
        rw [hstep]
        refine ⟨Or.inr rfl, fun hcon => Option.noConfusion hcon, fun _ => by simp, ?_, ?_⟩
        · intro _
          exact ⟨(cmd, env cl.length), by simp, hopc, hc⟩
        · intro p hp hpw hpn
          rcases List.mem_append.mp hp with hp | hp
          · exact List.mem_append_left _ (h5 p hp hpw hpn)
          · simp only [List.mem_singleton] at hp
            subst hp
            exact absurd hpw hopw
      · push_neg at hc
        have hstep : interp env isf (Op.checked cmd msg)
              ⟨cw, cl, inf, er, mv, cp, rm, ed, dr, rd, none⟩ =
            ⟨cw, cl ++ [(cmd, env cl.length)], inf, er, mv, cp, rm, ed, dr, rd, none⟩ := by
          simp [interp, checkedCall, hc]
        rw [hstep]
        refine ⟨Or.inl rfl, ?_, fun hcon => Option.noConfusion hcon,
          fun hcon => Option.noConfusion hcon, ?_⟩
        · intro _ p hp _
          rcases List.mem_append.mp hp with hp | hp
          · exact h2a p hp (by assumption)
          · simp only [List.mem_singleton] at hp
            subst hp
            exact hc
        · intro p hp hpw hpn
          rcases List.mem_append.mp hp with hp | hp
          · exact h5 p hp hpw hpn
          · simp only [List.mem_singleton] at hp
            subst hp
            exact absurd hc hpn
    | warn cmd msg =>
      simp only [opOk] at hop
      obtain ⟨hopc, hopw⟩ := hop
      by_cases hc : env cl.length ≠ 0
      · have hstep : interp env isf (Op.warn cmd msg)
              ⟨cw, cl, inf, er, mv, cp, rm, ed, dr, rd, none⟩ =
            ⟨cw, cl ++ [(cmd, env cl.length)], inf, er ++ [msg], mv, cp, rm, ed, dr, rd,
              none⟩ := by
          simp [interp, warnCall, printerror, hc]
        rw [hstep]
        refine ⟨Or.inl rfl, ?_, fun hcon => Option.noConfusion hcon,
          fun hcon => Option.noConfusion hcon, ?_⟩
        · intro _ p hp hpc
          rcases List.mem_append.mp hp with hp | hp
          · exact h2a p hp hpc
          · simp only [List.mem_singleton] at hp
            subst hp
            exact absurd hpc hopc
        · intro p hp hpw hpn
          rcases List.mem_append.mp hp with hp | hp
          · exact List.mem_append_left _ (h5 p hp hpw hpn)
          · simp only [List.mem_singleton] at hp
            subst hp
            rw [← hopw hpw]
            exact List.mem_append_right _ (by simp)
      · push_neg at hc
        have hstep : interp env isf (Op.warn cmd msg)
              ⟨cw, cl, inf, er, mv, cp, rm, ed, dr, rd, none⟩ =
            ⟨cw, cl ++ [(cmd, env cl.length)], inf, er, mv, cp, rm, ed, dr, rd, none⟩ := by
          simp [interp, warnCall, hc]
        rw [hstep]
        refine ⟨Or.inl rfl, ?_, fun hcon => Option.noConfusion hcon,
          fun hcon => Option.noConfusion hcon, ?_⟩
        · intro _ p hp hpc
          rcases List.mem_append.mp hp with hp | hp
          · exact h2a p hp hpc
          · simp only [List.mem_singleton] at hp
            subst hp
            exact absurd hpc hopc
        · intro p hp hpw hpn
          rcases List.mem_append.mp hp with hp | hp
          · exact h5 p hp hpw hpn
          · simp only [List.mem_singleton] at hp
            subst hp
            exact absurd hc hpn
    | note msg =>
      exact ⟨Or.inl rfl, fun _ => h2a, fun hcon => Option.noConfusion hcon,
        fun hcon => Option.noConfusion hcon, h5⟩
    | chdir p =>
      exact ⟨Or.inl rfl, fun _ => h2a, fun hcon => Option.noConfusion hcon,
        fun hcon => Option.noConfusion hcon, h5⟩
    | mkdir p =>
      exact ⟨Or.inl rfl, fun _ => h2a, fun hcon => Option.noConfusion hcon,
        fun hcon => Option.noConfusion hcon, h5⟩
    | rmdir p =>
      exact ⟨Or.inl rfl, fun _ => h2a, fun hcon => Option.noConfusion hcon,
        fun hcon => Option.noConfusion hcon, h5⟩
    | rmtree p =>
      exact ⟨Or.inl rfl, fun _ => h2a, fun hcon => Option.noConfusion hcon,
        fun hcon => Option.noConfusion hcon, h5⟩
    | move src dst =>
      exact ⟨Or.inl rfl, fun _ => h2a, fun hcon => Option.noConfusion hcon,
        fun hcon => Option.noConfusion hcon, h5⟩
    | copyFile src dst =>
      exact ⟨Or.inl rfl, fun _ => h2a, fun hcon => Option.noConfusion hcon,
        fun hcon => Option.noConfusion hcon, h5⟩
    | copyTree src dst =>
      exact ⟨Or.inl rfl, fun _ => h2a, fun hcon => Option.noConfusion hcon,
        fun hcon => Option.noConfusion hcon, h5⟩
    | removeIfFile p =>
      exact ⟨Or.inl rfl, fun _ => h2a, fun hcon => Option.noConfusion hcon,
        fun hcon => Option.noConfusion hcon, h5⟩
    | editFile p =>
      exact ⟨Or.inl rfl, fun _ => h2a, fun hcon => Option.noConfusion hcon,
        fun hcon => Option.noConfusion hcon, h5⟩
    | readInput =>
      exact ⟨Or.inl rfl, fun _ => h2a, fun hcon => Option.noConfusion hcon,
        fun hcon => Option.noConfusion hcon, h5⟩

lemma runOps_inv (env : Nat → Int) (isf : List String → Bool) :
    ∀ ops : List Op, (∀ op ∈ ops, opOk op) →
      ∀ s : ScriptState, stateInv s → stateInv (runOps env isf ops s) := by
  intro ops
  induction ops with
  | nil => intro _ s h; exact h
  | cons op rest ih =>
    intro hops s h
    rw [runOps]
    exact ih (fun o ho => hops o (List.mem_cons_of_mem op ho)) _
      (interp_inv env isf op (hops op (List.mem_cons_self op rest)) s h)

lemma stateInv_init : stateInv initState := by
  refine ⟨Or.inl rfl, ?_, fun hcon => Option.noConfusion hcon,
    fun hcon => Option.noConfusion hcon, ?_⟩
  · intro _ p hp
    simp [initState] at hp
  · intro p hp
    simp [initState] at hp

lemma testOps_ok : ∀ op ∈ testOps, opOk op := by decide

lemma testRelease_inv (env : Nat → Int) : stateInv (testReleaseRun env) :=
  runOps_inv env noFiles testOps testOps_ok initState stateInv_init

lemma testRelease_calls (env : Nat → Int) :
    ∃ m, (testReleaseRun env).calls = seqZip env 0 (testCmds.take m) := by
  obtain ⟨m, hm⟩ := runOps_calls env noFiles testOps initState
  refine ⟨m, ?_⟩
  rw [show testReleaseRun env = runOps env noFiles testOps initState from rfl, hm]
  simp [initState, testCmds]

/-! ### The sine_plot.py example (examples/python/sine_plot.py)

The GUI-toolkit calls of main() are modelled as an event list in call
order; Python floats are idealised as real numbers. -/

/-- One GUI call performed by sine_plot.py's main. -/
inductive PlotEvent where
  | addGraph : PlotEvent
  | setData (xs : List Nat) (ys : List Real) : PlotEvent
  | setRangeX (lo hi : Real) : PlotEvent
  | setRangeY (lo hi : Real) : PlotEvent
  | showPlot : PlotEvent
  | execApp : PlotEvent

/-- x_data = range(1000) of sine_plot.py. -/
def x_data : List Nat := List.range 1000

/-- y_data = [math.sin(x*2*math.pi/1000) for x in x_data] of sine_plot.py,
with Real.sin for math.sin. -/
noncomputable def y_data : List Real :=
  x_data.map (fun x : Nat => Real.sin ((x : Real) * 2 * Real.pi / 1000))

/-- The GUI calls of main() in source order: addGraph, setData with exactly
x_data and y_data, the two axis ranges, show, and app.exec_. -/
noncomputable def sinePlotEvents : List PlotEvent :=
  [PlotEvent.addGraph, PlotEvent.setData x_data y_data,
   PlotEvent.setRangeX 0 1000, PlotEvent.setRangeY (-2) 2,
   PlotEvent.showPlot, PlotEvent.execApp]

/-! ### Claim statements taken verbatim from the claim list, used by the
counterexamples -/

/-- A state handles failures as claim C1 words it: every recorded failing
call comes with a printed error and a non-zero exit. -/
def handlesFailures (s : ScriptState) : Prop :=
  ∀ p ∈ s.calls, p.2 ≠ 0 →
    (s.errors ≠ [] ∧ ∃ c : Int, s.exited = some c ∧ c ≠ 0)

/-- Claim C1 as stated: whenever a subprocess of either script fails, the
script prints an error and exits non-zero. -/
def c1claim : Prop :=
  (∀ (env : Nat → Int) (isf : List String → Bool), handlesFailures (releaseRun env isf)) ∧
  (∀ env : Nat → Int, handlesFailures (testReleaseRun env))

/-- Claim C2 as stated: the rewritten file holds exactly the lines computed
by the strict reading of the claim (a block always ends at a strictly later
end-marker line). -/
def c2claim : Prop :=
  ∀ (fname : String) (fs : FileSys) (lines : List String) (fs' : FileSys),
    fs fname = some lines → removeExcludeBlockFromFile fname fs = some fs' →
    fs' fname = some (specRemoveStrict lines)

/-- Tokens of a shell command string. -/
def shellTokens (cmd : String) : List String := splitCh ' ' cmd

/-- The program a shell command invokes, per the claim's reading: the first
token that is not a VAR=value assignment. -/
def shellProg (cmd : String) : String :=
  match (shellTokens cmd).dropWhile (fun t => strIn "=" t) with
  | [] => ""
  | t :: _ => t

/-- A command invokes one of the standard build tools named by claim C4. -/
def usesOnlyStdTools (cmd : String) : Prop :=
  shellProg cmd = "qmake" ∨ shellProg cmd = "make" ∨ shellProg cmd = "tar"

instance (cmd : String) : Decidable (usesOnlyStdTools cmd) := by
  unfold usesOnlyStdTools
  infer_instance

/-- Claim C4 as stated: every command either script ever invokes runs
qmake, make or tar. -/
def c4claim : Prop :=
  (∀ (env : Nat → Int) (isf : List String → Bool),
    ∀ p ∈ (releaseRun env isf).calls, usesOnlyStdTools p.1) ∧
  (∀ env : Nat → Int, ∀ p ∈ (testReleaseRun env).calls, usesOnlyStdTools p.1)

/-- Claim C5 as stated, in its "no function transforms file contents by its
own algorithm" part: removeExcludeBlockFromFile leaves the content of its
file unchanged. -/
def c5claim : Prop :=
  ∀ (fname : String) (fs : FileSys) (fs' : FileSys),
    removeExcludeBlockFromFile fname fs = some fs' → fs' fname = fs fname

/-! ### Concrete file systems for the file-level claims -/

/-- A .pro file with one exclude block and a line containing both markers
at once: the code closes the block on that very line. -/
def bothLines : List String := ["release-exclude-start release-exclude-end", "keep me"]

/-- File system holding only both.txt with `bothLines`. -/
def bothFS : FileSys := fun g => if g = "both.txt" then some bothLines else none

lemma specRemoveStrict_bothLines : specRemoveStrict bothLines = [] := by
  have h1 : specRemoveStrict ["release-exclude-start release-exclude-end", "keep me"] = [] := by
    rw [specRemoveStrict.eq_def]
    norm_num [show hasStartMarker "release-exclude-start release-exclude-end" = true from rfl,
      show afterBlock ["keep me"] = [] from rfl, specRemoveStrict_nil]
  exact h1

/-- Ordinary .pro file with one exclude block. -/
def demoLines : List String :=
  ["HEADERS += mainwindow.h", "release-exclude-start", "internal only",
   "release-exclude-end", "SOURCES += main.cpp"]

/-- File system holding only plot-examples.pro with `demoLines`. -/
def demoFS : FileSys := fun g => if g = "plot-examples.pro" then some demoLines else none

/-- File with an exclude block, used against the "no content is
transformed" claim. -/
def algLines : List String :=
  ["release-exclude-start", "hidden line", "release-exclude-end", "shown line"]

/-- File system holding only example.pro with `algLines`. -/
def algFS : FileSys := fun g => if g = "example.pro" then some algLines else none

/-- Two-file system for the frame-condition witness. -/
def frameFS : FileSys :=
  fun g =>
    if g = "notes.txt" then some ["keep", "release-exclude-end", "still kept"]
    else if g = "other.txt" then some ["untouched"] else none

/-! ### Claim C1 -/

set_option maxRecDepth 8000 in
/-- Claim C1 as stated is false: in release.py every subprocess exit status
is ignored; in the all-failing environment the doc tarball tar invocation
fails, yet nothing is printed and the script does not exit. -/
theorem c1_counterexample : ¬ c1claim := by
  intro hc
  have h2 := hc.1 oneEnv noFiles (tarCmd "QCustomPlot-doc", 1) (by decide) (by decide)
  exact h2.1 (release_errors oneEnv noFiles)

/-- Claim C1 (amended): release.py performs no error handling at all: it
never prints an error and never exits early, whatever the exit statuses.
test-release.py exits only with status 1; a checked command (tar
extraction, qmake or make) fails in its trace exactly when it has printed
an error and exited with 1; a failing example execution (a warn command)
only puts "Execution unsuccessful" among the printed messages, and when no
checked command fails the script continues to completion, running its
whole command list. -/
theorem c1_amended_handling (env env2 : Nat → Int) (isf : List String → Bool) :
    (releaseRun env isf).errors = [] ∧ (releaseRun env isf).exited = none ∧
    ((testReleaseRun env2).exited = none ∨ (testReleaseRun env2).exited = some 1) ∧
    ((∃ p ∈ (testReleaseRun env2).calls, p.1 ∈ checkedCmds ∧ p.2 ≠ 0) →
      (testReleaseRun env2).exited = some 1 ∧ (testReleaseRun env2).errors ≠ []) ∧
    ((testReleaseRun env2).exited = some 1 →
      ∃ p ∈ (testReleaseRun env2).calls, p.1 ∈ checkedCmds ∧ p.2 ≠ 0) ∧
    (∀ p ∈ (testReleaseRun env2).calls, p.1 ∈ warnCmds → p.2 ≠ 0 →
      "Execution unsuccessful" ∈ (testReleaseRun env2).errors) ∧
    ((testReleaseRun env2).exited = none →
      (testReleaseRun env2).calls.map Prod.fst = testCmds) := by
  obtain ⟨i1, i2, i3, i4, i5⟩ := testRelease_inv env2
  refine ⟨release_errors env isf, release_exited env isf, i1, ?_, i4, i5, ?_⟩
  · rintro ⟨p, hp, hpc, hpn⟩
    rcases i1 with hex | hex
    · exact absurd (i2 hex p hp hpc) hpn
    · exact ⟨hex, i3 hex⟩
  · intro hnone
    have h2 := runOps_calls_full env2 noFiles testOps initState hnone
    rw [show testReleaseRun env2 = runOps env2 noFiles testOps initState from rfl, h2]
    simp [initState, testCmds, seqZip_map_fst]

set_option maxRecDepth 8000 in
/-- Claim C1 (amended) witness: with every subprocess failing, the first
tar extraction of test-release.py fails, the script exits with status 1,
an error was printed, and the trace indeed holds a failing checked
command; with only the interaction-example execution failing, "Execution
unsuccessful" is printed and the script continues through its entire
command list. -/
theorem c1_amended_witness :
    ((testReleaseRun oneEnv).exited = some 1 ∧ (testReleaseRun oneEnv).errors ≠ []) ∧
    (∃ p ∈ (testReleaseRun oneEnv).calls, p.1 ∈ checkedCmds ∧ p.2 ≠ 0) ∧
    "Execution unsuccessful" ∈ (testReleaseRun warnFailEnv).errors ∧
    (testReleaseRun warnFailEnv).calls.map Prod.fst = testCmds :=
  ⟨(c1_amended_handling oneEnv oneEnv noFiles).2.2.2.1 (by decide),
   (c1_amended_handling oneEnv oneEnv noFiles).2.2.2.2.1 (by decide),
   (c1_amended_handling warnFailEnv warnFailEnv noFiles).2.2.2.2.2.1
     ("./interaction-example", 1) (by decide) (by decide) (by decide),
   (c1_amended_handling warnFailEnv warnFailEnv noFiles).2.2.2.2.2.2 (by decide)⟩

/-! ### Claim C2 -/

set_option maxRecDepth 8000 in
/-- Claim C2 as stated is false: on a file whose first line contains both
markers the code closes the block on that same line and keeps "keep me",
while the claim's "next later line containing release-exclude-end" reading
removes everything to end of file. -/
theorem c2_counterexample : ¬ c2claim := by
  intro hc
  have h2 := hc "both.txt" bothFS bothLines _ (by decide) rfl
  have h3 : some ["keep me"] = some (specRemoveStrict bothLines) := by
    rw [← h2]
    decide
  rw [specRemoveStrict_bothLines] at h3
  exact absurd (Option.some.inj h3) (by decide)

/-- Claim C2 (amended): for every file present in the file system,
removeExcludeBlockFromFile succeeds and rewrites the file to exactly its
original lines minus every exclude block, where a block extends from a
start-marker line through the FIRST end-marker line at or after it (the
start line itself may close the block); with no such line the block runs to
end of file, and an end-marker line with no open block is kept. -/
theorem c2_remove_exclude_amended (fname : String) (fs : FileSys) (lines : List String)
    (h : fs fname = some lines) :
    ∃ fs', removeExcludeBlockFromFile fname fs = some fs' ∧
      fs' fname = some (specRemove lines) := by
  refine ⟨_, removeExcludeBlockFromFile_eq fname fs lines h, ?_⟩
  have hne : ¬ (fname = fname ++ ".temp") := fun hh => temp_ne fname hh.symm
  simp [hne, removeExcludeLines_eq_specRemove]

/-- Claim C2 (amended) witness: on a concrete .pro file the rewrite keeps
exactly the lines outside the exclude block. -/
theorem c2_witness :
    (∃ fs', removeExcludeBlockFromFile "plot-examples.pro" demoFS = some fs' ∧
      fs' "plot-examples.pro" = some (specRemove demoLines)) ∧
    specRemove demoLines = ["HEADERS += mainwindow.h", "SOURCES += main.cpp"] :=
  ⟨c2_remove_exclude_amended "plot-examples.pro" demoFS demoLines (by decide),
   by rw [← removeExcludeLines_eq_specRemove]; decide⟩

/-! ### Claim C3 -/

set_option maxRecDepth 8000 in
/-- Claim C3: a release.py run packages exactly the four tarballs
QCustomPlot-doc, QCustomPlot-source, QCustomPlot and QCustomPlot-sharedlib
(its tar invocations are exactly those four, in that order), moves each of
them from ./temp into the script directory (destination path []), and at
the end the ./temp directory no longer exists. -/
theorem c3_release_packages (env : Nat → Int) (isf : List String → Bool) :
    ((releaseRun env isf).calls.map Prod.fst).filter (fun c => strIn "tar -caf" c) =
      [tarCmd "QCustomPlot-doc", tarCmd "QCustomPlot-source", tarCmd "QCustomPlot",
       tarCmd "QCustomPlot-sharedlib"] ∧
    (releaseRun env isf).moves =
      [(["temp", "QCustomPlot-doc.tar.gz"], []),
       (["temp", "QCustomPlot-source.tar.gz"], []),
       (["temp", "QCustomPlot.tar.gz"], []),
       (["temp", "QCustomPlot-sharedlib.tar.gz"], [])] ∧
    ["temp"] ∉ (releaseRun env isf).dirs := by
  refine ⟨?_, release_moves env isf, ?_⟩
  · rw [release_calls env isf, seqZip_map_fst]
    decide
  · rw [release_dirs env isf]
    decide

/-! ### Claim C4 -/

set_option maxRecDepth 8000 in
/-- Claim C4 as stated is false: release.py also shells out to rm via
"rm -r *", which invokes the program rm, not qmake, make or tar. -/
theorem c4_counterexample : ¬ c4claim := by
  intro hc
  exact absurd (hc.1 zeroEnv noFiles ("rm -r *", 0) (by decide)) (by decide)

/-- Claim C4 (amended): the commands the scripts invoke are exactly the
fixed lists releaseCmds and testCmds, which besides qmake, make and tar
also include rm -r *, cp, and executions of the built examples
(./interaction-example, ./plot-examples and ./sharedlib-demo under an
exported LD_LIBRARY_PATH). -/
theorem c4_amended_commands (env env2 : Nat → Int) (isf : List String → Bool) :
    (releaseRun env isf).calls.map Prod.fst = releaseCmds ∧
    ∀ p ∈ (testReleaseRun env2).calls, p.1 ∈ testCmds := by
  constructor
  · rw [release_calls env isf]
    exact seqZip_map_fst env releaseCmds 0
  · intro p hp
    obtain ⟨m, hm⟩ := testRelease_calls env2
    rw [hm] at hp
    exact List.take_subset m testCmds (seqZip_mem env2 (testCmds.take m) 0 p hp)

set_option maxRecDepth 8000 in
/-- Claim C4 (amended) witness: the first recorded call of an all-success
test-release.py run is the tar extraction and it is in testCmds. -/
theorem c4_amended_witness : "tar -xf QCustomPlot.tar.gz" ∈ testCmds :=
  (c4_amended_commands zeroEnv zeroEnv noFiles).2 ("tar -xf QCustomPlot.tar.gz", 0) (by decide)

/-! ### Claim C5 -/

/-- Claim C5 as stated is false: removeExcludeBlockFromFile transforms the
contents of its file by its own algorithm; on a file with an exclude block
the rewritten content differs from the original. -/
theorem c5_counterexample : ¬ c5claim := by
  intro hc
  have h2 := hc "example.pro" algFS _ rfl
  exact absurd h2 (by decide)

/-- Claim C5 (amended): every step of the scripts is a file copy, a shell
invocation or a directory manipulation except removeExcludeBlockFromFile,
which does transform file contents by its own algorithm, though only by
deleting lines: its output is always a sublist of its input lines. -/
theorem c5_amended_sublist (ls : List String) (b : Bool) :
    List.Sublist (removeExcludeLines ls b) ls := by
  induction ls generalizing b with
  | nil => simp [removeExcludeLines]
  | cons l rest ih =>
    simp only [removeExcludeLines]
    by_cases h1 : strIn "release-exclude-start" l <;>
      by_cases h2 : strIn "release-exclude-end" l <;>
        cases b <;>
          simp only [h1, h2, if_true, if_false, ite_true, ite_false, Bool.false_eq_true,
            List.nil_append, List.singleton_append, List.cons_append] <;>
          first
            | exact List.Sublist.cons l (ih _)
            | exact List.Sublist.cons₂ l (ih _)

/-! ### Claim C6 -/

/-- Claim C6: subprocess invocation is strictly sequential: in both
scripts the i-th recorded invocation carries exactly the exit status the
environment assigns to the i-th subprocess, so each subprocess has run to
completion and delivered its status before the next statement executes. -/
theorem c6_sequential_calls (env : Nat → Int) (isf : List String → Bool) (i : Nat) :
    (∀ p : String × Int, (releaseRun env isf).calls[i]? = some p → p.2 = env i) ∧
    (∀ p : String × Int, (testReleaseRun env).calls[i]? = some p → p.2 = env i) := by
  constructor
  · intro p hp
    rw [release_calls env isf] at hp
    simpa using seqZip_getElem? env releaseCmds 0 i p hp
  · intro p hp
    obtain ⟨m, hm⟩ := testRelease_calls env
    rw [hm] at hp
    simpa using seqZip_getElem? env (testCmds.take m) 0 i p hp

set_option maxRecDepth 8000 in
/-- Claim C6 witness: at index 2 the release.py trace records the source
tarball command with status incEnv 2 = 7, and the all-success
test-release.py trace records make with status 0. -/
theorem c6_witness :
    (tarCmd "QCustomPlot-source", (7 : Int)).2 = incEnv 2 ∧
    ("make", (0 : Int)).2 = zeroEnv 2 :=
  ⟨(c6_sequential_calls incEnv noFiles 2).1 (tarCmd "QCustomPlot-source", 7) (by decide),
   (c6_sequential_calls zeroEnv noFiles 2).2 ("make", 0) (by decide)⟩

/-! ### Claim C7 -/

set_option maxRecDepth 8000 in
/-- Claim C7: test-release.py tests the packages in a fixed order: in the
all-success run the command sequence is exactly testCmds (unpack
QCustomPlot.tar.gz; qmake, make and run interaction-example; qmake, make
and run plot-examples; unpack the sharedlib and source tarballs; build the
shared library; copy it into sharedlib-demo; build and run
sharedlib-demo), and every run's command sequence is an initial segment of
that order. -/
theorem c7_test_order :
    (testReleaseRun zeroEnv).calls.map Prod.fst = testCmds ∧
    ∀ env : Nat → Int, (testReleaseRun env).calls.map Prod.fst <+: testCmds := by
  constructor
  · rfl
  · intro env
    obtain ⟨m, hm⟩ := testRelease_calls env
    rw [hm, seqZip_map_fst]
    exact ⟨testCmds.drop m, List.take_append_drop m testCmds⟩

/-! ### Claim C8 -/

set_option maxRecDepth 8000 in
/-- Claim C8: sine_plot.py's main builds x_data as 0,...,999 and y_data of
the same length 1000 with y_data[i] = sin(i*2*pi/1000), passes exactly
these two lists to setData, and sets the x range to (0, 1000) and the y
range to (-2, 2) before showing the plot. -/
theorem c8_sine_plot :
    sinePlotEvents = [PlotEvent.addGraph, PlotEvent.setData x_data y_data,
      PlotEvent.setRangeX 0 1000, PlotEvent.setRangeY (-2) 2,
      PlotEvent.showPlot, PlotEvent.execApp] ∧
    x_data.length = 1000 ∧ y_data.length = 1000 ∧
    (∀ i : Nat, i < 1000 → x_data[i]? = some i) ∧
    (∀ i : Nat, i < 1000 → y_data[i]? = some (Real.sin (i * 2 * Real.pi / 1000))) := by
  refine ⟨rfl, ?_, ?_, ?_, ?_⟩
  · rw [x_data]
    exact List.length_range 1000
  · rw [y_data, List.length_map, x_data]
    exact List.length_range 1000
  · intro i hi
    rw [x_data, List.getElem?_range hi]
  · intro i hi
    rw [y_data, List.getElem?_map, x_data, List.getElem?_range hi]
    rfl

/-- Claim C8 witness: the first data point is x = 0, y = sin(0). -/
theorem c8_witness :
    x_data[0]? = some 0 ∧
    y_data[0]? = some (Real.sin ((0 : Nat) * 2 * Real.pi / 1000)) :=
  ⟨c8_sine_plot.2.2.2.1 0 (by decide), c8_sine_plot.2.2.2.2 0 (by decide)⟩

/-! ### Claim C9 -/

/-- Claim C9: whenever removeExcludeBlockFromFile returns, the temporary
file fname+".temp" it created does not exist, and no file other than fname
has its contents changed. -/
theorem c9_frame (fname : String) (fs : FileSys) (fs' : FileSys)
    (h : removeExcludeBlockFromFile fname fs = some fs') :
    fs' (fname ++ ".temp") = none ∧
    ∀ g : String, g ≠ fname → g ≠ fname ++ ".temp" → fs' g = fs g := by
  cases hf : fs fname with
  | none =>
    rw [show removeExcludeBlockFromFile fname fs = none from by
      unfold removeExcludeBlockFromFile fsRename
      rw [hf]
      rfl] at h
    exact Option.noConfusion h
  | some lines =>
    rw [removeExcludeBlockFromFile_eq fname fs lines hf] at h
    have hF := Option.some.inj h
    subst hF
    constructor
    · simp
    · intro g hg1 hg2
      simp [hg1, hg2]

/-- Claim C9 witness: rewriting notes.txt in a two-file system leaves no
notes.txt.temp behind and leaves other.txt untouched. -/
theorem c9_witness :
    ∃ fs', removeExcludeBlockFromFile "notes.txt" frameFS = some fs' ∧
      fs' ("notes.txt" ++ ".temp") = none ∧ fs' "other.txt" = frameFS "other.txt" := by
  obtain ⟨fs', hfs⟩ : ∃ x, removeExcludeBlockFromFile "notes.txt" frameFS = some x := ⟨_, rfl⟩
  have h := c9_frame "notes.txt" frameFS fs' hfs
  exact ⟨fs', hfs, h.1, h.2 "other.txt" (by decide) (by decide)⟩

/-! ### Claim C10 -/

/-- Claim C10: runQmakeMake invokes make only when qmake returned 0; it
returns normally (no exit, no new error) exactly when qmake and make both
return 0; in every other case it prints the corresponding error message
and terminates the script with exit status 1. -/
theorem c10_runQmakeMake (env : Nat → Int) (s : ScriptState) (h : s.exited = none) :
    (env s.calls.length ≠ 0 →
      (runQmakeMake env s).calls = s.calls ++ [("qmake", env s.calls.length)] ∧
      (runQmakeMake env s).errors = s.errors ++ ["qmake failed"] ∧
      (runQmakeMake env s).exited = some 1) ∧
    (env s.calls.length = 0 → env (s.calls.length + 1) ≠ 0 →
      (runQmakeMake env s).calls =
        s.calls ++ [("qmake", 0), ("make", env (s.calls.length + 1))] ∧
      (runQmakeMake env s).errors = s.errors ++ ["make failed"] ∧
      (runQmakeMake env s).exited = some 1) ∧
    (env s.calls.length = 0 → env (s.calls.length + 1) = 0 →
      (runQmakeMake env s).calls = s.calls ++ [("qmake", 0), ("make", 0)] ∧
      (runQmakeMake env s).errors = s.errors ∧
      (runQmakeMake env s).exited = none) := by
  obtain ⟨cw, cl, inf, er, mv, cp, rm, ed, dr, rd, ex⟩ := s
  simp only [ScriptState.exited] at h
  subst h
  refine ⟨?_, ?_, ?_⟩
  · intro h1
    simp [runQmakeMake, checkedCall, sysExit, printerror, h1]
  · intro h1 h2
    simp [runQmakeMake, checkedCall, sysExit, printerror, h1, h2, List.append_assoc]
  · intro h1 h2
    simp [runQmakeMake, checkedCall, h1, h2, List.append_assoc]

/-- Claim C10 witness: from the initial state with qmake succeeding and
make failing, runQmakeMake records both calls, prints "make failed" and
exits with status 1. -/
theorem c10_witness :
    (runQmakeMake mkFailEnv initState).calls = [("qmake", 0), ("make", 1)] ∧
    (runQmakeMake mkFailEnv initState).errors = ["make failed"] ∧
    (runQmakeMake mkFailEnv initState).exited = some 1 := by
  have h := (c10_runQmakeMake mkFailEnv initState rfl).2.1 (by decide) (by decide)
  simpa [initState, mkFailEnv] using h

end QcpRelease
